import Mathlib

/-!
Shallow embedding of the cross-market dashboard (`src/CrossMarketProject/app.py`).

The program is a Streamlit script over a SQLite store with three tables
(`crypto_prices(coin_id, date, price_inr)`, `oil_prices(date, price_usd)`,
`stock_prices(ticker, date, close)`).  Dates are stored as ISO text and the
SQL `BETWEEN` on them is byte-wise lexicographic comparison; we model dates as
`String` and implement that comparison explicitly (`dateLe`).  Store values
may be NULL, numeric, or text that fails numeric parsing; prices that parse
are modelled as rationals.  The pandas stage (`pd.to_numeric(errors="coerce")
.fillna(0)`) and the SQL `COALESCE(x, 0)` are modelled exactly.
-/

/-- Byte-wise lexicographic comparison of character lists; models SQLite's
ordering of TEXT values (for ASCII ISO dates, code-point order is byte order). -/
def strLeB : List Char → List Char → Bool
  | [], _ => true
  | _ :: _, [] => false
  | a :: as, b :: bs => if a = b then strLeB as bs else decide (a < b)

/-- Comparison used by the SQL `date BETWEEN ... AND ...` filters and by
`MIN(date)` / `MAX(date)`. -/
def dateLe (a b : String) : Bool := strLeB a.data b.data

/-- Raw SQL value of a price column: NULL, a numeric value, or text that
fails numeric parsing (values that do parse numerically are modelled as
`num` directly). -/
inductive Raw where
  | null
  | num (q : ℚ)
  | text (s : String)
deriving DecidableEq

/-- Model of `pd.to_numeric(x, errors="coerce")`: numeric values survive,
NULL and unparseable text become NaN (here `none`). -/
def parseNumeric : Raw → Option ℚ
  | .num q => some q
  | _ => none

/-- Composition `pd.to_numeric(x, errors="coerce").fillna(0)`: the defensive
cast policy — parseable values kept, everything else coerced to `0`. -/
def coerce0 (r : Raw) : ℚ := (parseNumeric r).getD 0

/-- SQL `COALESCE(v, 0)` applied to the value of a LEFT JOIN column: a missing
join row (`none`) or a stored NULL becomes the numeral `0`. -/
def coalesceRaw : Option Raw → Raw
  | none => .num 0
  | some .null => .num 0
  | some r => r

/-- Row of the `crypto_prices` table. -/
structure CryptoRow where
  coin_id : String
  date : String
  price_inr : Raw
deriving DecidableEq

/-- Row of the `oil_prices` table. -/
structure OilRow where
  date : String
  price_usd : Raw
deriving DecidableEq

/-- Row of the `stock_prices` table. -/
structure StockRow where
  ticker : String
  date : String
  close : Raw
deriving DecidableEq

/-- The SQLite store `market_project.db` (the three tables the queries read). -/
structure Store where
  crypto_prices : List CryptoRow
  oil_prices : List OilRow
  stock_prices : List StockRow
deriving DecidableEq

/-- LEFT JOIN helper: the list of join partners a single left row meets —
every match, or a single NULL row (`none`) when there is no match. -/
def matchesOpt {α : Type} (p : α → Bool) (l : List α) : List (Option α) :=
  if (l.filter p).isEmpty then [none] else (l.filter p).map some

/-- Result row of the Market Snapshot SQL query, before the pandas stage:
`SELECT cp.date, cp.price_inr AS bitcoin, COALESCE(o.price_usd,0) AS oil,
COALESCE(s1.close,0) AS sp500, COALESCE(s2.close,0) AS nifty`. -/
structure SnapshotRawRow where
  date : String
  bitcoin : Raw
  oil : Raw
  sp500 : Raw
  nifty : Raw
deriving DecidableEq

/-- One row of the cleaned wide frame `df` of the Market Snapshot page:
every series column is numeric, missing or bad data already coerced to `0`. -/
structure AlignedRow where
  date : String
  bitcoin : ℚ
  oil : ℚ
  sp500 : ℚ
  nifty : ℚ
deriving DecidableEq

/-- The Market Snapshot SQL query (app.py lines 78–93): backbone scan of
`crypto_prices` filtered to `coin_id='bitcoin'` and `date BETWEEN start AND
endd`, LEFT JOINed with `oil_prices` on date and with `stock_prices` twice
(tickers `^GSPC` and `^NSEI`), `COALESCE(...,0)` on the companion columns.
No `ORDER BY`: rows come out in the store's scan order. -/
def snapshotQuery (st : Store) (start endd : String) : List SnapshotRawRow :=
  (st.crypto_prices.filter fun cp =>
      cp.coin_id == "bitcoin" && dateLe start cp.date && dateLe cp.date endd).flatMap
    fun cp =>
      (matchesOpt (fun o => o.date == cp.date) st.oil_prices).flatMap fun o =>
        (matchesOpt (fun s => s.date == cp.date && s.ticker == "^GSPC")
            st.stock_prices).flatMap fun s1 =>
          (matchesOpt (fun s => s.date == cp.date && s.ticker == "^NSEI")
              st.stock_prices).map fun s2 =>
            { date := cp.date
              bitcoin := cp.price_inr
              oil := coalesceRaw (o.map OilRow.price_usd)
              sp500 := coalesceRaw (s1.map StockRow.close)
              nifty := coalesceRaw (s2.map StockRow.close) }

/-- The pandas cleanup of one query row (app.py lines 98–102): each of the
four series columns goes through `pd.to_numeric(errors="coerce").fillna(0)`. -/
def cleanRow (r : SnapshotRawRow) : AlignedRow :=
  { date := r.date
    bitcoin := coerce0 r.bitcoin
    oil := coerce0 r.oil
    sp500 := coerce0 r.sp500
    nifty := coerce0 r.nifty }

/-- The full Market Snapshot aggregation pipeline: SQL query then pandas
numeric coercion.  Besides the store it takes only the two user-entered
dates; the backbone coin and the two tickers are literals in the query. -/
def snapshotAggregate (st : Store) (start endd : String) : List AlignedRow :=
  (snapshotQuery st start endd).map cleanRow

/-- Outcome of the Market Snapshot page body: either the chart/table branch
with the cleaned frame, or the `st.warning("No data available...")` branch. -/
inductive RenderState where
  | noData
  | chart (rows : List AlignedRow)
deriving DecidableEq

/-- The `if not df.empty: ... else: st.warning(...)` dispatch of the Market
Snapshot page (app.py lines 95 and 137–138). -/
def renderSnapshot (st : Store) (start endd : String) : RenderState :=
  let df := snapshotAggregate st start endd
  if df.isEmpty then .noData else .chart df

/-- Long-format row produced by `df.melt(id_vars=["date"], var_name="Market",
value_name="Price")` (app.py lines 112–117). -/
structure LongRow where
  date : String
  market : String
  price : ℚ
deriving DecidableEq

/-- Column access of the wide frame by column name (the four series columns
of the Market Snapshot frame); unknown names read as `0`. -/
def AlignedRow.get (r : AlignedRow) (nm : String) : ℚ :=
  if nm = "bitcoin" then r.bitcoin
  else if nm = "oil" then r.oil
  else if nm = "sp500" then r.sp500
  else if nm = "nifty" then r.nifty
  else 0

/-- Model of `pandas.melt` with `id_vars=["date"]` and the given
`value_vars`: pandas stacks the value columns one after another, so the
output is column-major — all rows of the first value variable, then all rows
of the second, and so on. -/
def melt (rows : List AlignedRow) (names : List String) : List LongRow :=
  names.flatMap fun nm => rows.map fun r => ⟨r.date, nm, r.get nm⟩

/-- Model of `pandas.Series.mean` on an already-numeric column: sum divided
by count for a nonempty column, NaN (here `none`) for an empty one. -/
def colMean (xs : List ℚ) : Option ℚ :=
  if xs.isEmpty then none else some (xs.sum / xs.length)

/-- Rounding to two decimal places, as in `round(x, 2)` (app.py lines
106–109); ties are idealised to round-to-nearest. -/
def round2 (q : ℚ) : ℚ := (round (q * 100) : ℤ) / 100

/-- The per-series metric computation of the Market Snapshot page (app.py
lines 106–109): `round(df[name].mean(), 2)` for each requested column name.
`none` models the NaN that pandas produces for an empty frame. -/
def summarize (rows : List AlignedRow) (names : List String) :
    List (String × Option ℚ) :=
  names.map fun nm => (nm, (colMean (rows.map fun r => r.get nm)).map round2)

/-- SQL `MIN(date)` over a `crypto_prices` scan: NULL on an empty table,
otherwise the least date in scan order. -/
def sqlMinDate (l : List CryptoRow) : Option String :=
  match l with
  | [] => none
  | cp :: rest =>
    some ((rest.map CryptoRow.date).foldl (fun acc d => if dateLe d acc then d else acc) cp.date)

/-- SQL `MAX(date)` over a `crypto_prices` scan: NULL on an empty table,
otherwise the greatest date in scan order. -/
def sqlMaxDate (l : List CryptoRow) : Option String :=
  match l with
  | [] => none
  | cp :: rest =>
    some ((rest.map CryptoRow.date).foldl (fun acc d => if dateLe acc d then d else acc) cp.date)

/-- The bounds query of the Market Snapshot page (app.py lines 66–72):
`SELECT MIN(date), MAX(date) FROM crypto_prices` — over the whole table, with
no per-series filter; an empty table yields NULL bounds (NaT after
`pd.to_datetime`), not an error. -/
def resolveBounds (st : Store) : Option String × Option String :=
  (sqlMinDate st.crypto_prices, sqlMaxDate st.crypto_prices)

/-- The default date bounds of the Crypto Analysis page (app.py lines
178–188): the same `SELECT MIN(date), MAX(date) FROM crypto_prices` over the
whole table, regardless of which coin is selected. -/
def cryptoAnalysisDefaultRange (st : Store) : Option String × Option String :=
  (sqlMinDate st.crypto_prices, sqlMaxDate st.crypto_prices)

/-- Error case of the spec's Range Resolver contract. -/
inductive EmptyRangeError where
  | emptyRange
deriving DecidableEq

/-- Modelled from the spec (section 4.1), for comparison with the code's
`resolveBounds`: "resolve_bounds(series_filter) -> DateRange ... Fails with
EmptyRangeError if no rows match."  The code has no such error path. -/
def resolveBoundsSpec (st : Store) : Except EmptyRangeError (String × String) :=
  match sqlMinDate st.crypto_prices, sqlMaxDate st.crypto_prices with
  | some lo, some hi => .ok (lo, hi)
  | _, _ => .error .emptyRange

/-- Modelled from the spec (claim C9's words), for comparison with the
code's default range: the full observed span of the *selected primary
series*, i.e. MIN/MAX over the rows of that coin only. -/
def primarySpan (st : Store) (coin : String) : Option String × Option String :=
  (sqlMinDate (st.crypto_prices.filter fun cp => cp.coin_id == coin),
   sqlMaxDate (st.crypto_prices.filter fun cp => cp.coin_id == coin))

/-- Output row of the Crypto Analysis query: `SELECT date, price_inr`. -/
structure PricePoint where
  date : String
  price_inr : ℚ
deriving DecidableEq

/-- Intended semantics of the Crypto Analysis query plus its pandas coercion
(app.py lines 190–201): exact `coin_id` match, inclusive lexicographic
`BETWEEN` on date, `pd.to_numeric(errors="coerce").fillna(0)` on the price.
Faithful to the executed SQL only for `coin`/date strings free of quote
characters: the query text is built by f-string interpolation (see
`buildCryptoQuery`), so a quote inside `coin` changes the query itself. -/
def fetchSeries (st : Store) (coin start endd : String) : List PricePoint :=
  (st.crypto_prices.filter fun cp =>
      cp.coin_id == coin && dateLe start cp.date && dateLe cp.date endd).map
    fun cp => ⟨cp.date, coerce0 cp.price_inr⟩

/-- The single-quote character used by the SQL literals of the query text. -/
def quoteCh : Char := Char.ofNat 39

/-- Single-quote as a one-character string. -/
def sqt : String := String.singleton quoteCh

/-- The Crypto Analysis query text, exactly as the f-string of app.py lines
190–195 builds it: the user-chosen `coin` and the two dates are spliced into
the SQL text between single quotes, with no escaping and no parameter
binding. -/
def buildCryptoQuery (coin start endd : String) : String :=
  "\n    SELECT date, price_inr\n    FROM crypto_prices\n    WHERE coin_id=" ++
    sqt ++ coin ++ sqt ++ "\n    AND date BETWEEN " ++ sqt ++ start ++ sqt ++
    " AND " ++ sqt ++ endd ++ sqt ++ "\n    "

/-- SQL single-quoted string literal scanner: reads the characters after an
opening quote, treating a doubled quote as an escaped quote, and returns the
literal's value together with the remaining query text. -/
def parseLit : List Char → List Char → Option (String × List Char)
  | [], _ => none
  | [c], acc =>
    if c = quoteCh then some (String.mk acc.reverse, []) else none
  | c :: c2 :: rest2, acc =>
    if c = quoteCh then
      if c2 = quoteCh then parseLit rest2 (quoteCh :: acc)
      else some (String.mk acc.reverse, c2 :: rest2)
    else parseLit (c2 :: rest2) (c :: acc)

/-- The query text that follows the opening quote of the `coin_id=` literal
in `buildCryptoQuery` (everything after `WHERE coin_id='`). -/
def afterCoinEq (coin start endd : String) : List Char :=
  (coin ++ sqt ++ "\n    AND date BETWEEN " ++ sqt ++ start ++ sqt ++
    " AND " ++ sqt ++ endd ++ sqt ++ "\n    ").data

/-- The `coin_id` literal an SQL engine actually reads out of the
interpolated query text. -/
def effectiveCoinLiteral (coin start endd : String) : Option String :=
  (parseLit (afterCoinEq coin start endd) []).map Prod.fst

/-- The part of the store the Market Snapshot query can ever read: bitcoin
rows of `crypto_prices`, all of `oil_prices`, and the `^GSPC`/`^NSEI` rows of
`stock_prices` — the coin and the tickers are string literals in the query,
not parameters. -/
def restrictStore (st : Store) : Store :=
  { crypto_prices := st.crypto_prices.filter fun cp => cp.coin_id == "bitcoin"
    oil_prices := st.oil_prices
    stock_prices := st.stock_prices.filter fun s =>
      s.ticker == "^GSPC" || s.ticker == "^NSEI" }

/-- A small concrete store exercising the pipeline: bitcoin has three dates,
one with an unparseable price; oil and the two index tickers cover only the
first date; a second coin exists with a wider date span. -/
def demoStore : Store :=
  { crypto_prices :=
      [⟨"bitcoin", "2024-01-01", .num 100⟩,
       ⟨"bitcoin", "2024-01-02", .text "n/a"⟩,
       ⟨"bitcoin", "2024-01-03", .num 300⟩,
       ⟨"dogecoin", "2023-12-25", .num 1⟩,
       ⟨"dogecoin", "2024-02-14", .num 2⟩]
    oil_prices := [⟨"2024-01-01", .num 50⟩]
    stock_prices :=
      [⟨"^GSPC", "2024-01-01", .num 4000⟩,
       ⟨"^NSEI", "2024-01-01", .num 21000⟩,
       ⟨"^IXIC", "2024-01-02", .num 15000⟩] }

/-- A store whose bitcoin rows are stored in descending date order: the
backbone scan order that the Market Snapshot query inherits. -/
def descStore : Store :=
  { crypto_prices :=
      [⟨"bitcoin", "2024-01-02", .num 2⟩, ⟨"bitcoin", "2024-01-01", .num 1⟩]
    oil_prices := []
    stock_prices := [] }

/-- A store whose matched rows carry bad data on the backbone date
`2024-01-02`: the bitcoin price and the oil price are unparseable text, the
`^GSPC` close is NULL, and only the `^NSEI` close is numeric. -/
def badDataStore : Store :=
  { crypto_prices := [⟨"bitcoin", "2024-01-02", .text "n/a"⟩]
    oil_prices := [⟨"2024-01-02", .text "bad"⟩]
    stock_prices :=
      [⟨"^GSPC", "2024-01-02", .null⟩, ⟨"^NSEI", "2024-01-02", .num 21000⟩] }

/-- Lexicographic comparison is reflexive. -/
theorem strLeB_refl (l : List Char) : strLeB l l = true := by
  induction l with
  | nil => rfl
  | cons a as ih => simp [strLeB, ih]

/-- Lexicographic comparison is total. -/
theorem strLeB_total (a b : List Char) : strLeB a b = true ∨ strLeB b a = true := by
  induction a generalizing b with
  | nil => exact Or.inl rfl
  | cons x xs ih =>
    cases b with
    | nil => exact Or.inr rfl
    | cons y ys =>
      by_cases hxy : x = y
      · subst hxy
        rcases ih ys with h | h
        · exact Or.inl (by simp [strLeB, h])
        · exact Or.inr (by simp [strLeB, h])
      · rcases lt_trichotomy x y with hlt | heq | hgt
        · exact Or.inl (by simp [strLeB, hxy, hlt])
        · exact absurd heq hxy
        · exact Or.inr (by simp [strLeB, Ne.symm hxy, hgt])

/-- Lexicographic comparison is transitive. -/
theorem strLeB_trans {a b c : List Char} (h1 : strLeB a b = true)
    (h2 : strLeB b c = true) : strLeB a c = true := by
  induction a generalizing b c with
  | nil => rfl
  | cons x xs ih =>
    cases b with
    | nil => simp [strLeB] at h1
    | cons y ys =>
      cases c with
      | nil => simp [strLeB] at h2
      | cons z zs =>
        simp only [strLeB] at h1 h2 ⊢
        by_cases hxy : x = y
        · subst hxy
          simp only [if_pos rfl] at h1
          by_cases hyz : x = z
          · subst hyz
            simp only [if_pos rfl] at h2 ⊢
            exact ih h1 h2
          · simp only [if_neg hyz] at h2 ⊢
            exact h2
        · simp only [if_neg hxy, decide_eq_true_eq] at h1
          by_cases hyz : y = z
          · subst hyz
            simp only [if_neg hxy, decide_eq_true_eq]
            exact h1
          · simp only [if_neg hyz, decide_eq_true_eq] at h2
            have hlt : x < z := lt_trans h1 h2
            simp only [if_neg (ne_of_lt hlt), decide_eq_true_eq]
            exact hlt

/-- Date comparison is reflexive. -/
theorem dateLe_refl (a : String) : dateLe a a = true := strLeB_refl a.data

/-- Date comparison is total. -/
theorem dateLe_total (a b : String) : dateLe a b = true ∨ dateLe b a = true :=
  strLeB_total a.data b.data

/-- Date comparison is transitive. -/
theorem dateLe_trans {a b c : String} (h1 : dateLe a b = true)
    (h2 : dateLe b c = true) : dateLe a c = true := strLeB_trans h1 h2

/-- The running-minimum fold of `sqlMinDate` yields an element of the scan
(or the seed) that is a lower bound for the seed and for every scanned date. -/
theorem foldlMin_spec (l : List String) (m : String) :
    (l.foldl (fun acc d => if dateLe d acc then d else acc) m = m ∨
      l.foldl (fun acc d => if dateLe d acc then d else acc) m ∈ l) ∧
    dateLe (l.foldl (fun acc d => if dateLe d acc then d else acc) m) m = true ∧
    ∀ d ∈ l, dateLe (l.foldl (fun acc d => if dateLe d acc then d else acc) m) d = true := by
  induction l generalizing m with
  | nil => exact ⟨Or.inl rfl, dateLe_refl m, by simp⟩
  | cons d0 l ih =>
    simp only [List.foldl_cons]
    obtain ⟨hmem, hle, hall⟩ := ih (if dateLe d0 m then d0 else m)
    have hacc_m : dateLe (if dateLe d0 m then d0 else m) m = true := by
      by_cases h0 : dateLe d0 m = true
      · simp [h0]
      · simp [h0, dateLe_refl]
    have hacc_d0 : dateLe (if dateLe d0 m then d0 else m) d0 = true := by
      by_cases h0 : dateLe d0 m = true
      · simp [h0, dateLe_refl]
      · have := (dateLe_total d0 m).resolve_left h0
        simp [h0, this]
    refine ⟨?_, dateLe_trans hle hacc_m, ?_⟩
    · rcases hmem with h | h
      · rw [h]
        by_cases h0 : dateLe d0 m = true
        · simp [h0]
        · simp [h0]
      · exact Or.inr (List.mem_cons_of_mem _ h)
    · intro d hd
      rcases List.mem_cons.mp hd with hd | hd
      · subst hd
        exact dateLe_trans hle hacc_d0
      · exact hall d hd

/-- The running-maximum fold of `sqlMaxDate` yields an element of the scan
(or the seed) that is an upper bound for the seed and for every scanned date. -/
theorem foldlMax_spec (l : List String) (m : String) :
    (l.foldl (fun acc d => if dateLe acc d then d else acc) m = m ∨
      l.foldl (fun acc d => if dateLe acc d then d else acc) m ∈ l) ∧
    dateLe m (l.foldl (fun acc d => if dateLe acc d then d else acc) m) = true ∧
    ∀ d ∈ l, dateLe d (l.foldl (fun acc d => if dateLe acc d then d else acc) m) = true := by
  induction l generalizing m with
  | nil => exact ⟨Or.inl rfl, dateLe_refl m, by simp⟩
  | cons d0 l ih =>
    simp only [List.foldl_cons]
    obtain ⟨hmem, hle, hall⟩ := ih (if dateLe m d0 then d0 else m)
    have hm_acc : dateLe m (if dateLe m d0 then d0 else m) = true := by
      by_cases h0 : dateLe m d0 = true
      · simp [h0]
      · simp [h0, dateLe_refl]
    have hd0_acc : dateLe d0 (if dateLe m d0 then d0 else m) = true := by
      by_cases h0 : dateLe m d0 = true
      · simp [h0, dateLe_refl]
      · have := (dateLe_total m d0).resolve_left h0
        simp [h0, this]
    refine ⟨?_, dateLe_trans hm_acc hle, ?_⟩
    · rcases hmem with h | h
      · rw [h]
        by_cases h0 : dateLe m d0 = true
        · simp [h0]
        · simp [h0]
      · exact Or.inr (List.mem_cons_of_mem _ h)
    · intro d hd
      rcases List.mem_cons.mp hd with hd | hd
      · subst hd
        exact dateLe_trans hd0_acc hle
      · exact hall d hd

/-- `MIN(date)` on a nonempty `crypto_prices` scan returns a date of the
scan that is below every date of the scan. -/
theorem sqlMinDate_spec (l : List CryptoRow) (h : l ≠ []) :
    ∃ lo, sqlMinDate l = some lo ∧ lo ∈ l.map CryptoRow.date ∧
      ∀ d ∈ l.map CryptoRow.date, dateLe lo d = true := by
  cases l with
  | nil => exact absurd rfl h
  | cons cp rest =>
    obtain ⟨hmem, hle, hall⟩ := foldlMin_spec (rest.map CryptoRow.date) cp.date
    refine ⟨_, rfl, ?_, ?_⟩
    · rcases hmem with h' | h'
      · rw [h']
        exact List.mem_cons_self _ _
      · exact List.mem_cons_of_mem _ h'
    · intro d hd
      rcases List.mem_cons.mp hd with hd | hd
      · subst hd
        exact hle
      · exact hall d hd

/-- `MAX(date)` on a nonempty `crypto_prices` scan returns a date of the
scan that is above every date of the scan. -/
theorem sqlMaxDate_spec (l : List CryptoRow) (h : l ≠ []) :
    ∃ hi, sqlMaxDate l = some hi ∧ hi ∈ l.map CryptoRow.date ∧
      ∀ d ∈ l.map CryptoRow.date, dateLe d hi = true := by
  cases l with
  | nil => exact absurd rfl h
  | cons cp rest =>
    obtain ⟨hmem, hle, hall⟩ := foldlMax_spec (rest.map CryptoRow.date) cp.date
    refine ⟨_, rfl, ?_, ?_⟩
    · rcases hmem with h' | h'
      · rw [h']
        exact List.mem_cons_self _ _
      · exact List.mem_cons_of_mem _ h'
    · intro d hd
      rcases List.mem_cons.mp hd with hd | hd
      · subst hd
        exact hle
      · exact hall d hd

/-- A LEFT JOIN with no matching right row contributes exactly one NULL
partner. -/
theorem matchesOpt_of_filter_nil {α : Type} {p : α → Bool} {l : List α}
    (h : l.filter p = []) : matchesOpt p l = [none] := by
  simp [matchesOpt, h]

/-- Any member of the LEFT JOIN partner list of a row with no matching right
row is NULL. -/
theorem mem_matchesOpt_none {α : Type} {p : α → Bool} {l : List α} {x : Option α}
    (hx : x ∈ matchesOpt p l) (h : l.filter p = []) : x = none := by
  rw [matchesOpt_of_filter_nil h] at hx
  simpa using hx

/-- Decomposition of membership in the Market Snapshot result: every output
row arises from a bitcoin backbone row in range and one LEFT JOIN partner
choice per companion series. -/
theorem mem_snapshotAggregate {st : Store} {start endd : String} {r : AlignedRow}
    (hr : r ∈ snapshotAggregate st start endd) :
    ∃ cp ∈ st.crypto_prices,
      (cp.coin_id == "bitcoin" && dateLe start cp.date && dateLe cp.date endd) = true ∧
      ∃ o ∈ matchesOpt (fun x => x.date == cp.date) st.oil_prices,
        ∃ s1 ∈ matchesOpt (fun x => x.date == cp.date && x.ticker == "^GSPC") st.stock_prices,
          ∃ s2 ∈ matchesOpt (fun x => x.date == cp.date && x.ticker == "^NSEI") st.stock_prices,
            r = cleanRow
              { date := cp.date
                bitcoin := cp.price_inr
                oil := coalesceRaw (o.map OilRow.price_usd)
                sp500 := coalesceRaw (s1.map StockRow.close)
                nifty := coalesceRaw (s2.map StockRow.close) } := by
  simp only [snapshotAggregate, snapshotQuery, List.mem_map, List.mem_flatMap,
    List.mem_filter] at hr
  obtain ⟨raw, ⟨cp, ⟨hcp, hpred⟩, o, ho, s1, hs1, s2, hs2, hraw⟩, hclean⟩ := hr
  exact ⟨cp, hcp, hpred, o, ho, s1, hs1, s2, hs2, by rw [← hclean, ← hraw]⟩

/-- Indexing a concatenation of equal-length blocks: entry `j * n + i` of the
flattening is entry `i` of block `j`. -/
theorem flatMap_block_getElem {β : Type} (names : List String) (f : String → List β)
    (n : ℕ) (hlen : ∀ nm, (f nm).length = n) (j i : ℕ) (hj : j < names.length)
    (hi : i < n) :
    (names.flatMap f)[j * n + i]? = (f (names.get ⟨j, hj⟩))[i]? := by
  induction names generalizing j with
  | nil => exact absurd hj (Nat.not_lt_zero j)
  | cons nm names ih =>
    cases j with
    | zero =>
      rw [List.flatMap_cons, List.getElem?_append]
      simp only [Nat.zero_mul, Nat.zero_add]
      rw [if_pos (by rw [hlen nm]; exact hi)]
      rfl
    | succ j =>
      have hidx : (j + 1) * n + i = (f nm).length + (j * n + i) := by
        rw [hlen nm]
        ring
      rw [List.flatMap_cons, hidx, List.getElem?_append_right (Nat.le_add_right _ _),
        Nat.add_sub_cancel_left]
      exact ih j (Nat.lt_of_succ_lt_succ hj)

/-- C1 (amended): `to_long`/melt emits one long row per (row, name) pair with
total count preserved, but in series-name-major order: `output[j*n+i]` — not
`output[i*k+j]` — corresponds to `input[i]` and `series_names[j]`, for
`n = len(rows)`; within each series block the original row order is
preserved. -/
theorem melt_index (rows : List AlignedRow) (names : List String) (j i : ℕ)
    (hj : j < names.length) (hi : i < rows.length) :
    (melt rows names)[j * rows.length + i]? =
      some ⟨(rows.get ⟨i, hi⟩).date, names.get ⟨j, hj⟩,
        (rows.get ⟨i, hi⟩).get (names.get ⟨j, hj⟩)⟩ := by
  rw [melt, flatMap_block_getElem names _ rows.length (fun nm => by simp) j i hj hi,
    List.getElem?_map, List.getElem?_eq_getElem hi]
  rfl

/-- C1 (counterexample): the claimed row-major indexing `output[i*k+j]` fails
already for two rows and two names at `i = 0`, `j = 1`, `k = 2`: pandas
`melt` puts `(input[1], names[0])` there, not `(input[0], names[1])`. -/
theorem melt_not_row_major :
    (melt [⟨"2024-01-01", 1, 2, 3, 4⟩, ⟨"2024-01-02", 5, 6, 7, 8⟩]
        ["bitcoin", "oil"])[0 * 2 + 1]? ≠
      some ⟨"2024-01-01", "oil", 2⟩ := by decide

/-- C1 (witness): the amended indexing law evaluated at two concrete rows,
`j = 1`, `i = 0`. -/
theorem melt_index_witness :
    (1 < (["bitcoin", "oil"] : List String).length ∧
      0 < ([⟨"2024-01-01", 1, 2, 3, 4⟩,
            ⟨"2024-01-02", 5, 6, 7, 8⟩] : List AlignedRow).length) ∧
    (melt [⟨"2024-01-01", 1, 2, 3, 4⟩, ⟨"2024-01-02", 5, 6, 7, 8⟩]
        ["bitcoin", "oil"])[1 * 2 + 0]? = some ⟨"2024-01-01", "oil", 2⟩ :=
  ⟨⟨by decide, by decide⟩,
    (melt_index [⟨"2024-01-01", 1, 2, 3, 4⟩, ⟨"2024-01-02", 5, 6, 7, 8⟩]
        ["bitcoin", "oil"] 1 0 (by decide) (by decide)).trans (by decide)⟩

/-- C2 (code bug): the Market Snapshot query has no `ORDER BY`, so the
aggregation inherits the store's scan order instead of sorting by date: on a
store whose bitcoin rows are stored date-descending, the returned dates are
`["2024-01-02", "2024-01-01"]`, which is not ascending. -/
theorem snapshot_not_sorted :
    (snapshotAggregate descStore "2024-01-01" "2024-01-31").map AlignedRow.date =
      ["2024-01-02", "2024-01-01"] ∧
    ¬ List.Pairwise (fun a b => dateLe a b = true)
      ((snapshotAggregate descStore "2024-01-01" "2024-01-31").map AlignedRow.date) :=
  ⟨by decide, by decide⟩

/-- C3 (code bug): the Crypto Analysis query is built by f-string
interpolation, not parameter binding: the user-supplied series id is spliced
verbatim into the query text, and for an id containing a quote the SQL
literal the engine reads back is a strict prefix of the id (here `x` instead
of the full string), so the executed filter is not an exact match on the
requested series id.  A benign id round-trips only by luck of containing no
quote. -/
theorem interpolation_breaks_literal :
    buildCryptoQuery ("x" ++ sqt ++ " OR coin_id=" ++ sqt ++ "y")
        "2024-01-01" "2024-12-31" =
      "\n    SELECT date, price_inr\n    FROM crypto_prices\n    WHERE coin_id=" ++
        sqt ++ String.mk (afterCoinEq ("x" ++ sqt ++ " OR coin_id=" ++ sqt ++ "y")
          "2024-01-01" "2024-12-31") ∧
    effectiveCoinLiteral ("x" ++ sqt ++ " OR coin_id=" ++ sqt ++ "y")
        "2024-01-01" "2024-12-31" = some "x" ∧
    ("x" : String) ≠ "x" ++ sqt ++ " OR coin_id=" ++ sqt ++ "y" ∧
    effectiveCoinLiteral "bitcoin" "2024-01-01" "2024-12-31" = some "bitcoin" :=
  ⟨by decide, by decide, by decide, by decide⟩

/-- C4: whenever a companion series (oil, `^GSPC`, `^NSEI`) has no row on a
backbone date, the corresponding field of the aligned row is exactly `0`
(produced by `COALESCE(...,0)` and preserved by the pandas coercion); the
field is always present, by the shape of `AlignedRow`. -/
theorem snapshot_missing_companion_zero {st : Store} {start endd : String}
    {r : AlignedRow} (hr : r ∈ snapshotAggregate st start endd) :
    (st.oil_prices.filter (fun o => o.date == r.date) = [] → r.oil = 0) ∧
    (st.stock_prices.filter (fun s => s.date == r.date && s.ticker == "^GSPC") = [] →
      r.sp500 = 0) ∧
    (st.stock_prices.filter (fun s => s.date == r.date && s.ticker == "^NSEI") = [] →
      r.nifty = 0) := by
  obtain ⟨cp, _, _, o, ho, s1, hs1, s2, hs2, hr'⟩ := mem_snapshotAggregate hr
  subst hr'
  refine ⟨fun hnil => ?_, fun hnil => ?_, fun hnil => ?_⟩
  · have hnone : o = none := mem_matchesOpt_none ho hnil
    subst hnone
    rfl
  · have hnone : s1 = none := mem_matchesOpt_none hs1 hnil
    subst hnone
    rfl
  · have hnone : s2 = none := mem_matchesOpt_none hs2 hnil
    subst hnone
    rfl

/-- C4 (witness): in `demoStore` the backbone date `2024-01-02` has no oil
row and no `^GSPC`/`^NSEI` row, and its aligned row carries exactly `0` in
all three companion fields. -/
theorem snapshot_missing_companion_zero_witness :
    ((⟨"2024-01-02", 0, 0, 0, 0⟩ : AlignedRow) ∈
        snapshotAggregate demoStore "2024-01-01" "2024-01-03") ∧
    ((demoStore.oil_prices.filter
        (fun o => o.date == (⟨"2024-01-02", 0, 0, 0, 0⟩ : AlignedRow).date) = [] →
        (⟨"2024-01-02", 0, 0, 0, 0⟩ : AlignedRow).oil = 0) ∧
      (demoStore.stock_prices.filter
        (fun s => s.date == (⟨"2024-01-02", 0, 0, 0, 0⟩ : AlignedRow).date &&
          s.ticker == "^GSPC") = [] →
        (⟨"2024-01-02", 0, 0, 0, 0⟩ : AlignedRow).sp500 = 0) ∧
      (demoStore.stock_prices.filter
        (fun s => s.date == (⟨"2024-01-02", 0, 0, 0, 0⟩ : AlignedRow).date &&
          s.ticker == "^NSEI") = [] →
        (⟨"2024-01-02", 0, 0, 0, 0⟩ : AlignedRow).nifty = 0)) :=
  ⟨by decide,
    @snapshot_missing_companion_zero demoStore "2024-01-01" "2024-01-03"
      ⟨"2024-01-02", 0, 0, 0, 0⟩ (by decide)⟩

/-- C5 (counterexample): on an empty input sequence the metric computation
does not return `0.0`: the modelled pandas mean of an empty column is NaN
(`none`), and in the program the metric lines are unreachable for an empty
frame (the page takes the warning branch instead). -/
theorem summarize_empty_not_zero :
    summarize [] ["bitcoin"] ≠ [("bitcoin", some (0 : ℚ))] := by decide

/-- C5 (amended): for every nonempty sequence of aligned rows, `summarize`
returns per series the unweighted arithmetic mean — sum divided by row
count — rounded to two decimal places; on an empty sequence the mean is NaN
(`none`), not `0.0`, and the program never computes the metrics then. -/
theorem summarize_mean (rows : List AlignedRow) (names : List String)
    (h : rows ≠ []) :
    summarize rows names = names.map fun nm =>
      (nm, some (round2 ((rows.map fun r => r.get nm).sum / (rows.length : ℚ)))) := by
  unfold summarize
  refine List.map_congr_left fun nm _ => ?_
  have hne : ((rows.map fun r => r.get nm).isEmpty) = false := by
    simp [List.isEmpty_iff, h]
  simp [colMean, hne]

/-- C5 (witness): the amended mean law evaluated at a single concrete row. -/
theorem summarize_mean_witness :
    (([⟨"2024-01-01", 1, 2, 3, 4⟩] : List AlignedRow) ≠ []) ∧
    summarize [⟨"2024-01-01", 1, 2, 3, 4⟩] ["bitcoin"] =
      ["bitcoin"].map fun nm =>
        (nm, some (round2 ((([⟨"2024-01-01", 1, 2, 3, 4⟩] : List AlignedRow).map
          fun r => r.get nm).sum /
            ((([⟨"2024-01-01", 1, 2, 3, 4⟩] : List AlignedRow).length : ℚ))))) :=
  ⟨by decide, summarize_mean _ _ (by decide)⟩

/-- C6 (counterexample): on an empty store the bounds query returns NULL
bounds — a normal value, which `pd.to_datetime` turns into NaT — whereas the
spec-modelled Range Resolver contract demands failure with
`EmptyRangeError`; the code also applies no per-series filter. -/
theorem resolveBounds_empty_no_error :
    resolveBounds ⟨[], [], []⟩ = (none, none) ∧
    resolveBoundsSpec ⟨[], [], []⟩ = .error .emptyRange :=
  ⟨rfl, rfl⟩

/-- C6 (amended): the bounds query never fails: it returns `(NULL, NULL)` on
an empty `crypto_prices` table, and otherwise the minimum and maximum date
over the *whole* table — not over a per-series filter. -/
theorem resolveBounds_minmax (st : Store) (h : st.crypto_prices ≠ []) :
    ∃ lo hi, resolveBounds st = (some lo, some hi) ∧
      lo ∈ st.crypto_prices.map CryptoRow.date ∧
      hi ∈ st.crypto_prices.map CryptoRow.date ∧
      ∀ d ∈ st.crypto_prices.map CryptoRow.date,
        dateLe lo d = true ∧ dateLe d hi = true := by
  obtain ⟨lo, hlo, hlomem, hloall⟩ := sqlMinDate_spec st.crypto_prices h
  obtain ⟨hi, hhi, hhimem, hhiall⟩ := sqlMaxDate_spec st.crypto_prices h
  exact ⟨lo, hi, by simp [resolveBounds, hlo, hhi], hlomem, hhimem,
    fun d hd => ⟨hloall d hd, hhiall d hd⟩⟩

/-- C6 (witness): the min/max characterisation evaluated on `demoStore`. -/
theorem resolveBounds_minmax_witness :
    (demoStore.crypto_prices ≠ []) ∧
    (∃ lo hi, resolveBounds demoStore = (some lo, some hi) ∧
      lo ∈ demoStore.crypto_prices.map CryptoRow.date ∧
      hi ∈ demoStore.crypto_prices.map CryptoRow.date ∧
      ∀ d ∈ demoStore.crypto_prices.map CryptoRow.date,
        dateLe lo d = true ∧ dateLe d hi = true) :=
  ⟨by decide, resolveBounds_minmax demoStore (by decide)⟩

/-- C7: when the backbone series has no observation in range, the
aggregation returns the empty sequence — no error — and the page takes the
explicit no-data warning branch. -/
theorem snapshot_no_backbone_empty (st : Store) (start endd : String)
    (h : ∀ cp ∈ st.crypto_prices, cp.coin_id = "bitcoin" →
      ¬(dateLe start cp.date = true ∧ dateLe cp.date endd = true)) :
    snapshotAggregate st start endd = [] ∧
    renderSnapshot st start endd = .noData := by
  have hf : st.crypto_prices.filter (fun cp =>
      cp.coin_id == "bitcoin" && dateLe start cp.date && dateLe cp.date endd) = [] := by
    rw [List.filter_eq_nil_iff]
    intro cp hcp
    simp only [Bool.and_eq_true, beq_iff_eq, not_and]
    rintro ⟨hcoin, hstart⟩ hend
    exact h cp hcp hcoin ⟨hstart, hend⟩
  refine ⟨?_, ?_⟩
  · simp [snapshotAggregate, snapshotQuery, hf]
  · simp [renderSnapshot, snapshotAggregate, snapshotQuery, hf]

/-- C7 (witness): `demoStore` has no bitcoin observation in 2025, and the
page renders the no-data state for that range. -/
theorem snapshot_no_backbone_empty_witness :
    (∀ cp ∈ demoStore.crypto_prices, cp.coin_id = "bitcoin" →
      ¬(dateLe "2025-01-01" cp.date = true ∧ dateLe cp.date "2025-12-31" = true)) ∧
    (snapshotAggregate demoStore "2025-01-01" "2025-12-31" = [] ∧
      renderSnapshot demoStore "2025-01-01" "2025-12-31" = .noData) :=
  ⟨by decide, snapshot_no_backbone_empty demoStore "2025-01-01" "2025-12-31" (by decide)⟩

/-- The pandas coercion of a COALESCEd present value agrees with the
coercion of the stored value itself: COALESCE only rewrites NULL to `0`,
which the coercion sends to `0` anyway. -/
theorem coerce0_coalesceRaw_some (raw : Raw) :
    coerce0 (coalesceRaw (some raw)) = coerce0 raw := by
  cases raw <;> rfl

/-- A LEFT JOIN partner is either the NULL row or an actual right-table row
satisfying the join condition. -/
theorem mem_matchesOpt_cases {α : Type} {p : α → Bool} {l : List α} {x : Option α}
    (hx : x ∈ matchesOpt p l) :
    x = none ∨ ∃ a, x = some a ∧ a ∈ l ∧ p a = true := by
  unfold matchesOpt at hx
  by_cases he : ((l.filter p).isEmpty) = true
  · rw [if_pos he] at hx
    exact Or.inl (by simpa using hx)
  · rw [if_neg he] at hx
    simp only [List.mem_map] at hx
    obtain ⟨a, ha, hax⟩ := hx
    rw [List.mem_filter] at ha
    exact Or.inr ⟨a, hax.symm, ha.1, ha.2⟩

/-- C8: both pipelines are total (they return for every store, so bad data
never raises), and every value of every output column is the defensive
coercion of a store value: the backbone price is `coerce0` of the stored
`price_inr`, and each companion field is `coerce0` of the matched row's
stored value (or `0` when no row matches) — so any value that fails numeric
parsing, in any of the four columns, appears as exactly `0`. -/
theorem pipeline_coerces_bad_data {st : Store} {coin start endd : String}
    {r : AlignedRow} {p : PricePoint}
    (hr : r ∈ snapshotAggregate st start endd)
    (hp : p ∈ fetchSeries st coin start endd) :
    (∃ cp ∈ st.crypto_prices, r.date = cp.date ∧
      r.bitcoin = coerce0 cp.price_inr ∧
      (parseNumeric cp.price_inr = none → r.bitcoin = 0)) ∧
    ((∃ orow ∈ st.oil_prices, orow.date = r.date ∧
        r.oil = coerce0 orow.price_usd ∧
        (parseNumeric orow.price_usd = none → r.oil = 0)) ∨ r.oil = 0) ∧
    ((∃ srow ∈ st.stock_prices, srow.date = r.date ∧ srow.ticker = "^GSPC" ∧
        r.sp500 = coerce0 srow.close ∧
        (parseNumeric srow.close = none → r.sp500 = 0)) ∨ r.sp500 = 0) ∧
    ((∃ srow ∈ st.stock_prices, srow.date = r.date ∧ srow.ticker = "^NSEI" ∧
        r.nifty = coerce0 srow.close ∧
        (parseNumeric srow.close = none → r.nifty = 0)) ∨ r.nifty = 0) ∧
    (∃ cq ∈ st.crypto_prices, p.date = cq.date ∧
      p.price_inr = coerce0 cq.price_inr ∧
      (parseNumeric cq.price_inr = none → p.price_inr = 0)) := by
  obtain ⟨cp, hcp, _, o, ho, s1, hs1, s2, hs2, hr'⟩ := mem_snapshotAggregate hr
  subst hr'
  refine ⟨⟨cp, hcp, rfl, rfl, fun hnone => ?_⟩, ?_, ?_, ?_, ?_⟩
  · show coerce0 cp.price_inr = 0
    simp [coerce0, hnone]
  · rcases mem_matchesOpt_cases ho with hnone | ⟨orow, heq, hmem, hpred⟩
    · subst hnone
      exact Or.inr rfl
    · subst heq
      have hdate : orow.date = cp.date := by simpa using hpred
      refine Or.inl ⟨orow, hmem, hdate, ?_, fun hnone => ?_⟩
      · exact coerce0_coalesceRaw_some orow.price_usd
      · show coerce0 (coalesceRaw (some orow.price_usd)) = 0
        rw [coerce0_coalesceRaw_some]
        simp [coerce0, hnone]
  · rcases mem_matchesOpt_cases hs1 with hnone | ⟨srow, heq, hmem, hpred⟩
    · subst hnone
      exact Or.inr rfl
    · subst heq
      have hpred' : srow.date = cp.date ∧ srow.ticker = "^GSPC" := by simpa using hpred
      refine Or.inl ⟨srow, hmem, hpred'.1, hpred'.2, ?_, fun hnone => ?_⟩
      · exact coerce0_coalesceRaw_some srow.close
      · show coerce0 (coalesceRaw (some srow.close)) = 0
        rw [coerce0_coalesceRaw_some]
        simp [coerce0, hnone]
  · rcases mem_matchesOpt_cases hs2 with hnone | ⟨srow, heq, hmem, hpred⟩
    · subst hnone
      exact Or.inr rfl
    · subst heq
      have hpred' : srow.date = cp.date ∧ srow.ticker = "^NSEI" := by simpa using hpred
      refine Or.inl ⟨srow, hmem, hpred'.1, hpred'.2, ?_, fun hnone => ?_⟩
      · exact coerce0_coalesceRaw_some srow.close
      · show coerce0 (coalesceRaw (some srow.close)) = 0
        rw [coerce0_coalesceRaw_some]
        simp [coerce0, hnone]
  · simp only [fetchSeries, List.mem_map, List.mem_filter] at hp
    obtain ⟨cq, ⟨hcq, _⟩, hpq⟩ := hp
    subst hpq
    refine ⟨cq, hcq, rfl, rfl, fun hnone => ?_⟩
    show coerce0 cq.price_inr = 0
    simp [coerce0, hnone]

/-- C8 (witness): in `badDataStore` the backbone date `2024-01-02` meets an
unparseable bitcoin price, an unparseable matched oil price, a NULL matched
`^GSPC` close and a numeric `^NSEI` close; both pipelines return and carry
`0` for every bad value and `21000` for the good one. -/
theorem pipeline_coerces_bad_data_witness :
    ((⟨"2024-01-02", 0, 0, 0, 21000⟩ : AlignedRow) ∈
        snapshotAggregate badDataStore "2024-01-01" "2024-01-03") ∧
    ((⟨"2024-01-02", 0⟩ : PricePoint) ∈
        fetchSeries badDataStore "bitcoin" "2024-01-01" "2024-01-03") ∧
    ((∃ cp ∈ badDataStore.crypto_prices,
        (⟨"2024-01-02", 0, 0, 0, 21000⟩ : AlignedRow).date = cp.date ∧
        (⟨"2024-01-02", 0, 0, 0, 21000⟩ : AlignedRow).bitcoin = coerce0 cp.price_inr ∧
        (parseNumeric cp.price_inr = none →
          (⟨"2024-01-02", 0, 0, 0, 21000⟩ : AlignedRow).bitcoin = 0)) ∧
      ((∃ orow ∈ badDataStore.oil_prices,
          orow.date = (⟨"2024-01-02", 0, 0, 0, 21000⟩ : AlignedRow).date ∧
          (⟨"2024-01-02", 0, 0, 0, 21000⟩ : AlignedRow).oil = coerce0 orow.price_usd ∧
          (parseNumeric orow.price_usd = none →
            (⟨"2024-01-02", 0, 0, 0, 21000⟩ : AlignedRow).oil = 0)) ∨
        (⟨"2024-01-02", 0, 0, 0, 21000⟩ : AlignedRow).oil = 0) ∧
      ((∃ srow ∈ badDataStore.stock_prices,
          srow.date = (⟨"2024-01-02", 0, 0, 0, 21000⟩ : AlignedRow).date ∧
          srow.ticker = "^GSPC" ∧
          (⟨"2024-01-02", 0, 0, 0, 21000⟩ : AlignedRow).sp500 = coerce0 srow.close ∧
          (parseNumeric srow.close = none →
            (⟨"2024-01-02", 0, 0, 0, 21000⟩ : AlignedRow).sp500 = 0)) ∨
        (⟨"2024-01-02", 0, 0, 0, 21000⟩ : AlignedRow).sp500 = 0) ∧
      ((∃ srow ∈ badDataStore.stock_prices,
          srow.date = (⟨"2024-01-02", 0, 0, 0, 21000⟩ : AlignedRow).date ∧
          srow.ticker = "^NSEI" ∧
          (⟨"2024-01-02", 0, 0, 0, 21000⟩ : AlignedRow).nifty = coerce0 srow.close ∧
          (parseNumeric srow.close = none →
            (⟨"2024-01-02", 0, 0, 0, 21000⟩ : AlignedRow).nifty = 0)) ∨
        (⟨"2024-01-02", 0, 0, 0, 21000⟩ : AlignedRow).nifty = 0) ∧
      (∃ cq ∈ badDataStore.crypto_prices,
        (⟨"2024-01-02", 0⟩ : PricePoint).date = cq.date ∧
        (⟨"2024-01-02", 0⟩ : PricePoint).price_inr = coerce0 cq.price_inr ∧
        (parseNumeric cq.price_inr = none →
          (⟨"2024-01-02", 0⟩ : PricePoint).price_inr = 0))) :=
  ⟨by decide, by decide,
    @pipeline_coerces_bad_data badDataStore "bitcoin" "2024-01-01" "2024-01-03"
      ⟨"2024-01-02", 0, 0, 0, 21000⟩ ⟨"2024-01-02", 0⟩ (by decide) (by decide)⟩

/-- C9 (counterexample): on `demoStore` the default date range offered by
the Crypto Analysis page spans all coins (`2023-12-25` to `2024-02-14`,
set by dogecoin), which differs from the observed span of the selected
primary series bitcoin (`2024-01-01` to `2024-01-03`). -/
theorem defaultRange_not_primary_span :
    cryptoAnalysisDefaultRange demoStore ≠ primarySpan demoStore "bitcoin" := by
  decide

/-- C9 (amended): the default date range equals the full observed span of
the *entire* `crypto_prices` table — minimum and maximum date over all
coins — independent of the selected primary series. -/
theorem defaultRange_whole_table (st : Store) (h : st.crypto_prices ≠ []) :
    ∃ lo hi, cryptoAnalysisDefaultRange st = (some lo, some hi) ∧
      lo ∈ st.crypto_prices.map CryptoRow.date ∧
      hi ∈ st.crypto_prices.map CryptoRow.date ∧
      ∀ d ∈ st.crypto_prices.map CryptoRow.date,
        dateLe lo d = true ∧ dateLe d hi = true := by
  obtain ⟨lo, hlo, hlomem, hloall⟩ := sqlMinDate_spec st.crypto_prices h
  obtain ⟨hi, hhi, hhimem, hhiall⟩ := sqlMaxDate_spec st.crypto_prices h
  exact ⟨lo, hi, by simp [cryptoAnalysisDefaultRange, hlo, hhi], hlomem, hhimem,
    fun d hd => ⟨hloall d hd, hhiall d hd⟩⟩

/-- C9 (witness): the whole-table span characterisation evaluated on
`demoStore`. -/
theorem defaultRange_whole_table_witness :
    (demoStore.crypto_prices ≠ []) ∧
    (∃ lo hi, cryptoAnalysisDefaultRange demoStore = (some lo, some hi) ∧
      lo ∈ demoStore.crypto_prices.map CryptoRow.date ∧
      hi ∈ demoStore.crypto_prices.map CryptoRow.date ∧
      ∀ d ∈ demoStore.crypto_prices.map CryptoRow.date,
        dateLe lo d = true ∧ dateLe d hi = true) :=
  ⟨by decide, defaultRange_whole_table demoStore (by decide)⟩

/-- A LEFT JOIN partner scan is unchanged by pre-filtering the right table
with any predicate implied by the scan's own predicate. -/
theorem matchesOpt_filter_sub {α : Type} (p q : α → Bool) (l : List α)
    (h : ∀ x, p x = true → q x = true) :
    matchesOpt p (l.filter q) = matchesOpt p l := by
  have hf : (l.filter q).filter p = l.filter p := by
    rw [List.filter_filter]
    apply List.filter_congr
    intro a _
    cases hp : p a
    · rfl
    · simp [h a hp]
  simp [matchesOpt, hf]

/-- C10: the Market Snapshot aggregation reads only the bitcoin rows of
`crypto_prices` and the `^GSPC`/`^NSEI` rows of `stock_prices` — the
backbone coin and both tickers are hard-coded literals of the query, and
(by the shape of `snapshotAggregate`) the date range is the only
user-controllable parameter besides the store itself. -/
theorem snapshot_fixed_series (st : Store) (start endd : String) :
    snapshotAggregate st start endd = snapshotAggregate (restrictStore st) start endd := by
  have hcrypto : ((st.crypto_prices.filter fun cp => cp.coin_id == "bitcoin").filter
      fun cp => cp.coin_id == "bitcoin" && dateLe start cp.date && dateLe cp.date endd) =
      st.crypto_prices.filter
        (fun cp => cp.coin_id == "bitcoin" && dateLe start cp.date && dateLe cp.date endd) := by
    rw [List.filter_filter]
    apply List.filter_congr
    intro cp _
    cases hc : (cp.coin_id == "bitcoin") <;> simp [hc]
  have h1 : ∀ d : String,
      matchesOpt (fun s => s.date == d && s.ticker == "^GSPC")
        (st.stock_prices.filter fun s => s.ticker == "^GSPC" || s.ticker == "^NSEI") =
      matchesOpt (fun s => s.date == d && s.ticker == "^GSPC") st.stock_prices := by
    intro d
    apply matchesOpt_filter_sub
    intro x hx
    simp only [Bool.and_eq_true] at hx
    simp [hx.2]
  have h2 : ∀ d : String,
      matchesOpt (fun s => s.date == d && s.ticker == "^NSEI")
        (st.stock_prices.filter fun s => s.ticker == "^GSPC" || s.ticker == "^NSEI") =
      matchesOpt (fun s => s.date == d && s.ticker == "^NSEI") st.stock_prices := by
    intro d
    apply matchesOpt_filter_sub
    intro x hx
    simp only [Bool.and_eq_true] at hx
    simp [hx.2]
  simp only [snapshotAggregate, snapshotQuery, restrictStore, hcrypto, h1, h2]
